import Mathlib

/-!
Verification of the money-utils rounding-and-conservation engine.

The repository's own code (`src/unnamed/part_000` and `src/constant/money.ts`)
is embedded shallowly over `ℚ`.  The external decimal engine
(`@sifxt/math-utils`) is out of the repository's scope; it is modelled from
the spec's external-interface contract (section 6): add/subtract/multiply are
exact, divide is truncated to a requested number of fractional digits
(20 by default) and fails on a zero divisor, comparisons are exact.
-/

namespace MoneyUtils

/-! ## Rounding modes (src/constant/money.ts, `RoundingMode`) -/

/-- The nine rounding modes of `RoundingMode` in src/constant/money.ts. -/
inductive RoundingMode where
  | roundUp
  | roundDown
  | roundCeil
  | roundFloor
  | roundHalfUp
  | roundHalfDown
  | roundHalfEven
  | roundHalfCeil
  | roundHalfFloor
deriving DecidableEq, Repr

/-- `DEFAULT_ROUNDING_MODE = RoundingMode.ROUND_HALF_EVEN`. -/
def DEFAULT_ROUNDING_MODE : RoundingMode := RoundingMode.roundHalfEven

/-- `DEFAULT_DECIMAL_PLACES = 2`. -/
def DEFAULT_DECIMAL_PLACES : ℕ := 2

/-- Round a rational to an integer under a rounding mode.  The tie-break
behaviour follows the mode documentation in src/constant/money.ts:
UP away from zero, DOWN towards zero, CEIL/FLOOR towards plus/minus
infinity, the HALF modes round to nearest with the named tie-break. -/
def rint (mode : RoundingMode) (x : ℚ) : ℤ :=
  match mode with
  | .roundFloor => ⌊x⌋
  | .roundCeil => ⌈x⌉
  | .roundDown => if 0 ≤ x then ⌊x⌋ else ⌈x⌉
  | .roundUp => if 0 ≤ x then ⌈x⌉ else ⌊x⌋
  | .roundHalfUp =>
      if x - ⌊x⌋ < 1/2 then ⌊x⌋
      else if 1/2 < x - ⌊x⌋ then ⌊x⌋ + 1
      else if 0 ≤ x then ⌊x⌋ + 1 else ⌊x⌋
  | .roundHalfDown =>
      if x - ⌊x⌋ < 1/2 then ⌊x⌋
      else if 1/2 < x - ⌊x⌋ then ⌊x⌋ + 1
      else if 0 ≤ x then ⌊x⌋ else ⌊x⌋ + 1
  | .roundHalfEven =>
      if x - ⌊x⌋ < 1/2 then ⌊x⌋
      else if 1/2 < x - ⌊x⌋ then ⌊x⌋ + 1
      else if ⌊x⌋ % 2 = 0 then ⌊x⌋ else ⌊x⌋ + 1
  | .roundHalfCeil =>
      if x - ⌊x⌋ < 1/2 then ⌊x⌋
      else if 1/2 < x - ⌊x⌋ then ⌊x⌋ + 1
      else ⌊x⌋ + 1
  | .roundHalfFloor =>
      if x - ⌊x⌋ < 1/2 then ⌊x⌋
      else if 1/2 < x - ⌊x⌋ then ⌊x⌋ + 1
      else ⌊x⌋

/-- Modelled from the spec: the external decimal engine's `preciseRound`:
the value correctly rounded to `decimalPlaces` fractional digits under the
given mode. -/
def preciseRound (value : ℚ) (decimalPlaces : ℕ) (mode : RoundingMode) : ℚ :=
  (rint mode (value * 10 ^ decimalPlaces) : ℚ) / 10 ^ decimalPlaces

/-- Modelled from the spec: the engine's `preciseDivide`, truncated toward
zero at `precision` fractional digits (spec section 6; the default precision
when the TS call omits it is 20), failing on a zero divisor with the
engine's DivisionByZero condition (modelled as `none`). -/
def preciseDivide (a b : ℚ) (precision : ℕ) : Option ℚ :=
  if b = 0 then none else some (preciseRound (a / b) precision .roundDown)

/-- Modelled from the spec: the engine's `precisePercentage`:
`(base * rate) / 100`.  Division by the constant 100 only shifts the decimal
point, so it is exact. -/
def precisePercentage (base rate : ℚ) : ℚ := base * rate / 100

/-- Modelled from the spec: the engine's `preciseClamp`:
clamp `value` into `[lo, hi]`. -/
def preciseClamp (value lo hi : ℚ) : ℚ := min hi (max lo value)

/-- Modelled from the spec: `clamp` of math-utils on plain numbers
(used for the quantity bound in `validateLineItemInput`). -/
def mathClamp (value lo hi : ℤ) : ℤ := min hi (max lo value)

/-- `Number.MAX_SAFE_INTEGER`. -/
def MAX_SAFE_INTEGER : ℤ := 9007199254740991

/-! ## Currency registry (src/constant/money.ts) -/

/-- `CURRENCY_DECIMAL_PLACES` table: ISO 4217 decimal places by currency
code, as listed in src/constant/money.ts. -/
def CURRENCY_DECIMAL_PLACES : List (String × ℕ) :=
  [("JPY", 0), ("KRW", 0), ("VND", 0), ("IDR", 0),
   ("KWD", 3), ("BHD", 3), ("OMR", 3),
   ("INR", 2), ("USD", 2), ("EUR", 2), ("GBP", 2), ("AUD", 2), ("SGD", 2),
   ("CNY", 2), ("HKD", 2), ("THB", 2), ("MYR", 2), ("PHP", 2), ("TWD", 2),
   ("NZD", 2), ("AED", 2), ("SAR", 2), ("QAR", 2), ("CAD", 2), ("MXN", 2),
   ("BRL", 2), ("CHF", 2), ("SEK", 2), ("NOK", 2), ("DKK", 2), ("PLN", 2),
   ("CZK", 2), ("RUB", 2), ("TRY", 2), ("ZAR", 2), ("EGP", 2), ("NGN", 2),
   ("KES", 2), ("LKR", 2), ("PKR", 2), ("BDT", 2), ("NPR", 2), ("MVR", 2)]

/-- `String.prototype.toUpperCase`, mapped character by character
(structural recursion over the string's characters). -/
def toUpperString (s : String) : String := ⟨s.data.map Char.toUpper⟩

/-- `getCurrencyDecimalPlaces`: case-insensitive lookup of the decimal
places of a currency, defaulting to `DEFAULT_DECIMAL_PLACES = 2` for
unknown codes (the registry's permissive fallback). -/
def getCurrencyDecimalPlaces (currencyCode : String) : ℕ :=
  (CURRENCY_DECIMAL_PLACES.lookup (toUpperString currencyCode)).getD DEFAULT_DECIMAL_PLACES

/-! ## Currency-aware rounding (src/unnamed/part_000, `round` and friends) -/

/-- `round(value, decimalPlaces, mode)`: wrapper around the engine's
rounding (`preciseRound` under the mapped mode). -/
def round (value : ℚ) (decimalPlaces : ℕ) (mode : RoundingMode) : ℚ :=
  preciseRound value decimalPlaces mode

/-- `roundForCurrency(value, currency, mode = DEFAULT_ROUNDING_MODE)`:
round at the currency's decimal places; every call site in the line-item
engine uses the default mode, so the mode is fixed to HALF_EVEN here. -/
def roundForCurrency (value : ℚ) (currency : String) : ℚ :=
  round value (getCurrencyDecimalPlaces currency) DEFAULT_ROUNDING_MODE

/-! ## Money objects and number helpers (src/unnamed/part_000) -/

/-- `Money`: an amount with a currency code. -/
structure Money where
  amount : ℚ
  currency : String
deriving DecidableEq, Repr

/-- `divideMoney(money, divisor)`: divides through the engine's
`preciseDivide` (default precision) with no local guard, so a zero divisor
surfaces the engine's DivisionByZero condition (`none`). -/
def divideMoney (money : Money) (divisor : ℚ) : Option Money :=
  (preciseDivide money.amount divisor 20).map fun a => ⟨a, money.currency⟩

/-- `roundCurrencyNumber(value, currency)`: round to the currency's
precision under the default mode (the optional UP/DOWN direction argument
is never passed by the functions embedded here). -/
def roundCurrencyNumber (value : ℚ) (currency : String) : ℚ :=
  round value (getCurrencyDecimalPlaces currency) DEFAULT_ROUNDING_MODE

/-- `divideMoneyNumbers(a, b, currency)`: checks the divisor for zero first
and returns 0 in that case ("Avoid division by zero" in the source);
otherwise divides through the engine and rounds to currency precision.
The `getD 0` arm is unreachable: the guard ensures the divisor is nonzero. -/
def divideMoneyNumbers (a b : ℚ) (currency : String) : ℚ :=
  if b = 0 then 0
  else ((preciseDivide a b 20).map fun q => roundCurrencyNumber q currency).getD 0

/-! ## Rounding-adjustment distribution (src/unnamed/part_000,
`distributeRoundingAdjustment`) -/

/-- One minor unit at `decimalPlaces`, i.e. `10 ^ (-decimalPlaces)`. -/
def minorUnit (decimalPlaces : ℕ) : ℚ := ((10 : ℚ) ^ decimalPlaces)⁻¹

/-- The increment string `'0.' + '0'.repeat(decimalPlaces - 1) + '1'` built
by `distributeRoundingAdjustment`.  For `decimalPlaces = 0` the repetition
count is negative and `String.prototype.repeat` throws a RangeError, so the
construction has no value (`none`); for `decimalPlaces ≥ 1` it denotes one
minor unit. -/
def incrementForScale (decimalPlaces : ℕ) : Option ℚ :=
  if (decimalPlaces : ℤ) - 1 < 0 then none else some (minorUnit decimalPlaces)

/-- The `while` loop of `distributeRoundingAdjustment`: while the remaining
`difference` is nonzero and the iteration count is below the safety limit
(`fuel`, started at `10 × n`), add `increment` to the entry at
`index % result.length` and subtract it from the difference. -/
def distLoop (increment : ℚ) : ℕ → ℕ → List ℚ → ℚ → List ℚ
  | 0, _, result, _ => result
  | fuel + 1, index, result, difference =>
    if difference = 0 then result
    else
      let itemIndex := index % result.length
      distLoop increment fuel (index + 1)
        (result.set itemIndex (result.getD itemIndex 0 + increment))
        (difference - increment)

/-- `distributeRoundingAdjustment(values, targetTotal, decimalPlaces)`:
round each value at the scale (default mode), compute the residual
`targetTotal - sum(rounded)`, and if nonzero redistribute it one signed
minor unit at a time at indices 0, 1, 2, … wrapping, capped at `10 × n`
iterations.  `none` models the RangeError thrown while building the
increment string when `decimalPlaces = 0`. -/
def distributeRoundingAdjustment (values : List ℚ) (targetTotal : ℚ)
    (decimalPlaces : ℕ) : Option (List ℚ) :=
  if values = [] then some []
  else
    let roundedValues := values.map fun v => round v decimalPlaces DEFAULT_ROUNDING_MODE
    let currentSum := roundedValues.sum
    let difference := targetTotal - currentSum
    if difference = 0 then some roundedValues
    else
      match incrementForScale decimalPlaces with
      | none => none
      | some u =>
        let increment := if 0 < difference then u else -u
        some (distLoop increment (roundedValues.length * 10) 0 roundedValues difference)

/-- Specification-level redistribution: starting at `index`, apply `m`
increments of `increment`, one at a time, at consecutive indices wrapping
modulo the list length. -/
def wrapAdd (increment : ℚ) : ℕ → ℕ → List ℚ → List ℚ
  | _, 0, l => l
  | index, m + 1, l =>
    let itemIndex := index % l.length
    wrapAdd increment (index + 1) m
      (l.set itemIndex (l.getD itemIndex 0 + increment))

/-! ## Line-item engine data model (src/unnamed/part_000) -/

/-- `LineItemInput`: raw input of the line-item engine.  `quantity` is a
plain JS number, so it is a rational here; `discountAmount` defaults to 0
and `currency` to "INR" at the TS call sites. -/
structure LineItemInput where
  unitPrice : ℚ
  quantity : ℚ
  discountAmount : ℚ
  taxRate : ℚ
  currency : String
deriving DecidableEq, Repr

/-- The validation error messages pushed by `validateLineItemInput`,
as symbolic constructors. -/
inductive ValidationError where
  | unitPriceNegative
  | quantityTooSmall
  | discountNegative
  | taxRateNegative
  | taxRateTooHigh
deriving DecidableEq, Repr

/-- The record returned by `validateLineItemInput`. -/
structure ValidatedLineItemInput where
  unitPrice : ℚ
  quantity : ℤ
  discountAmount : ℚ
  taxRate : ℚ
  currency : String
  isValid : Bool
  errors : List ValidationError
deriving DecidableEq, Repr

/-- `validateLineItemInput(input)`: clamp each field to its nearest valid
value and record each violation; computation never aborts. -/
def validateLineItemInput (input : LineItemInput) : ValidatedLineItemInput :=
  let unitPrice := if input.unitPrice < 0 then 0 else input.unitPrice
  let rawQuantity := ⌊input.quantity⌋
  let quantity := mathClamp rawQuantity 1 MAX_SAFE_INTEGER
  let discountAmount :=
    preciseClamp input.discountAmount 0 (max input.discountAmount 0)
  let taxRate := preciseClamp input.taxRate 0 100
  let currency := if input.currency = "" then "INR" else input.currency
  let errors : List ValidationError :=
    (if input.unitPrice < 0 then [ValidationError.unitPriceNegative] else [])
      ++ (if input.quantity < 1 then [ValidationError.quantityTooSmall] else [])
      ++ (if input.discountAmount < 0 then [ValidationError.discountNegative] else [])
      ++ (if input.taxRate < 0 then [ValidationError.taxRateNegative] else [])
      ++ (if 100 < input.taxRate then [ValidationError.taxRateTooHigh] else [])
  { unitPrice := unitPrice
    quantity := quantity
    discountAmount := discountAmount
    taxRate := taxRate
    currency := currency
    isValid := errors.isEmpty
    errors := errors }

/-- The sanitized `input` block of a `LineItemResult`. -/
structure SanitizedInput where
  unitPrice : ℚ
  quantity : ℤ
  discountAmount : ℚ
  taxRate : ℚ
deriving DecidableEq, Repr

/-- The `calculated` block of a `LineItemResult`: all values rounded to
currency precision. -/
structure CalculatedAmounts where
  grossAmount : ℚ
  taxableAmount : ℚ
  taxAmount : ℚ
  total : ℚ
deriving DecidableEq, Repr

/-- `LineItemResult`: full audit record of one line item. -/
structure LineItemResult where
  input : SanitizedInput
  calculated : CalculatedAmounts
  roundingAdjustment : ℚ
  currency : String
  decimalPlaces : ℕ
deriving DecidableEq, Repr

/-- `EnteredTotalLineItemResult extends LineItemResult` for entered-total
mode. -/
structure EnteredTotalLineItemResult extends LineItemResult where
  exactUnitPrice : ℚ
  displayedUnitPrice : ℚ
  recomputedTotal : ℚ
  hasAdjustment : Bool
deriving DecidableEq, Repr

/-- `calculateLineItem(input)`: derived mode.  Each step is rounded to
currency scale before the next step consumes it, and the rounding
adjustment is the literal `'0'`. -/
def calculateLineItem (input : LineItemInput) : LineItemResult :=
  let validated := validateLineItemInput input
  let decimalPlaces := getCurrencyDecimalPlaces validated.currency
  let grossAmount :=
    roundForCurrency (validated.unitPrice * (validated.quantity : ℚ)) validated.currency
  let effectiveDiscount :=
    if grossAmount < validated.discountAmount then grossAmount
    else validated.discountAmount
  let taxableAmount :=
    roundForCurrency (grossAmount - effectiveDiscount) validated.currency
  let taxAmount :=
    roundForCurrency (precisePercentage taxableAmount validated.taxRate) validated.currency
  let total := roundForCurrency (taxableAmount + taxAmount) validated.currency
  { input :=
      { unitPrice := validated.unitPrice
        quantity := validated.quantity
        discountAmount := effectiveDiscount
        taxRate := validated.taxRate }
    calculated :=
      { grossAmount := grossAmount
        taxableAmount := taxableAmount
        taxAmount := taxAmount
        total := total }
    roundingAdjustment := 0
    currency := validated.currency
    decimalPlaces := decimalPlaces }

/-- `calculateLineItemFromTotal(enteredTotal, quantity, taxRate,
discountAmount = 0, currency = 'INR')`: entered-total mode.  The engine's
divisions can raise DivisionByZero (a tax rate of -100 makes the tax
multiplier zero), modelled by the `Option`. -/
def calculateLineItemFromTotal (enteredTotal : ℚ) (quantity : ℚ) (taxRate : ℚ)
    (discountAmount : ℚ) (currency : String) : Option EnteredTotalLineItemResult :=
  let decimalPlaces := getCurrencyDecimalPlaces currency
  let total := roundForCurrency enteredTotal currency
  let discount := discountAmount
  let tax := taxRate
  let qty : ℤ := max 1 ⌊quantity⌋
  (preciseDivide tax 100 20).bind fun taxOver100 =>
    let taxMultiplier := 1 + taxOver100
    (preciseDivide total taxMultiplier 20).bind fun backSolved =>
      let taxableAmount := roundForCurrency backSolved currency
      let grossAmount := roundForCurrency (taxableAmount + discount) currency
      (preciseDivide grossAmount (qty : ℚ) 10).bind fun exactUnitPrice =>
        let displayedUnitPrice := roundForCurrency exactUnitPrice currency
        let recomputedResult := calculateLineItem
          { unitPrice := displayedUnitPrice
            quantity := (qty : ℚ)
            discountAmount := discount
            taxRate := tax
            currency := currency }
        let recomputedTotal := recomputedResult.calculated.total
        let adjustment := total - recomputedTotal
        some
          { input :=
              { unitPrice := displayedUnitPrice
                quantity := qty
                discountAmount := discount
                taxRate := tax }
            calculated :=
              { grossAmount := recomputedResult.calculated.grossAmount
                taxableAmount := recomputedResult.calculated.taxableAmount
                taxAmount := recomputedResult.calculated.taxAmount
                total := total }
            roundingAdjustment := adjustment
            currency := currency
            decimalPlaces := decimalPlaces
            exactUnitPrice := exactUnitPrice
            displayedUnitPrice := displayedUnitPrice
            recomputedTotal := recomputedTotal
            hasAdjustment := decide (adjustment ≠ 0) }

/-! ## Aggregation and integrity checking (src/unnamed/part_000) -/

/-- `InvoiceAggregation`: invoice totals over a list of line items. -/
structure InvoiceAggregation where
  totalTaxable : ℚ
  totalTax : ℚ
  totalBeforeAdjustment : ℚ
  totalAdjustment : ℚ
  grandTotal : ℚ
  itemCount : ℕ
  hasAdjustments : Bool
  items : List LineItemResult
  currency : String
deriving DecidableEq, Repr

/-- `aggregateLineItems(items, currency = 'INR')`: sums the taxable, tax
and adjustment columns, folds any column-versus-row rounding mismatch into
the adjustment, and defines the grand total as the (rounded) sum of the
individually displayed line totals. -/
def aggregateLineItems (items : List LineItemResult) (currency : String) :
    InvoiceAggregation :=
  if items = [] then
    { totalTaxable := 0, totalTax := 0, totalBeforeAdjustment := 0
      totalAdjustment := 0, grandTotal := 0, itemCount := 0
      hasAdjustments := false, items := [], currency := currency }
  else
    let totalTaxable :=
      roundForCurrency (items.map fun item => item.calculated.taxableAmount).sum currency
    let totalTax :=
      roundForCurrency (items.map fun item => item.calculated.taxAmount).sum currency
    let totalBeforeAdjustment := roundForCurrency (totalTaxable + totalTax) currency
    let totalAdjustment := (items.map fun item => item.roundingAdjustment).sum
    let grandTotal := roundForCurrency (totalBeforeAdjustment + totalAdjustment) currency
    let sumOfLineTotals :=
      roundForCurrency (items.map fun item => item.calculated.total).sum currency
    let finalAdjustment :=
      if grandTotal = sumOfLineTotals then totalAdjustment
      else totalAdjustment + (sumOfLineTotals - grandTotal)
    { totalTaxable := totalTaxable
      totalTax := totalTax
      totalBeforeAdjustment := totalBeforeAdjustment
      totalAdjustment := roundForCurrency finalAdjustment currency
      grandTotal := sumOfLineTotals
      itemCount := items.length
      hasAdjustments := decide (finalAdjustment ≠ 0)
      items := items
      currency := currency }

/-- The mismatches reported by `verifyInvoiceIntegrity`, as symbolic
constructors carrying the compared amounts. -/
inductive IntegrityError where
  | lineItemMismatch (index : ℕ) (total expectedTotal : ℚ)
  | grandTotalMismatch (grandTotal expectedGrandTotal : ℚ)
deriving DecidableEq, Repr

/-- The record returned by `verifyInvoiceIntegrity`. -/
structure IntegrityResult where
  isValid : Bool
  errors : List IntegrityError
  expectedGrandTotal : ℚ
  actualGrandTotal : ℚ
  difference : ℚ
deriving DecidableEq, Repr

/-- The indexed `for` loop of `verifyInvoiceIntegrity`: recompute
`taxable + tax + adjustment` (rounded) per line and report a mismatch
against the stored total. -/
def verifyLines (currency : String) : ℕ → List LineItemResult → List IntegrityError
  | _, [] => []
  | i, item :: rest =>
    let expectedTotal :=
      roundForCurrency
        (item.calculated.taxableAmount + item.calculated.taxAmount
          + item.roundingAdjustment) currency
    (if item.calculated.total ≠ expectedTotal then
        [IntegrityError.lineItemMismatch i item.calculated.total expectedTotal]
      else [])
      ++ verifyLines currency (i + 1) rest

/-- `verifyInvoiceIntegrity(aggregation)`: pure checker recomputing each
line's total and the grand total; empty error list means valid. -/
def verifyInvoiceIntegrity (aggregation : InvoiceAggregation) : IntegrityResult :=
  let currency := aggregation.currency
  let lineErrors := verifyLines currency 0 aggregation.items
  let expectedGrandTotal :=
    roundForCurrency (aggregation.items.map fun item => item.calculated.total).sum
      currency
  let errors :=
    lineErrors
      ++ (if aggregation.grandTotal ≠ expectedGrandTotal then
            [IntegrityError.grandTotalMismatch aggregation.grandTotal expectedGrandTotal]
          else [])
  { isValid := errors.isEmpty
    errors := errors
    expectedGrandTotal := expectedGrandTotal
    actualGrandTotal := aggregation.grandTotal
    difference := aggregation.grandTotal - expectedGrandTotal }

/-- The CGST/SGST split returned by `splitTaxCGSTSGST`. -/
structure GSTSplit where
  cgst : ℚ
  sgst : ℚ
deriving DecidableEq, Repr

/-- `splitTaxCGSTSGST(taxAmount, currency = 'INR')`: CGST is the rounded
half of the tax, SGST is the rounded remainder `tax - cgst`.  The divisor 2
is nonzero, so the engine division always succeeds and the `getD 0`
fallback is unreachable. -/
def splitTaxCGSTSGST (taxAmount : ℚ) (currency : String) : GSTSplit :=
  let tax := taxAmount
  let half := (preciseDivide tax 2 20).getD 0
  let cgst := roundForCurrency half currency
  let sgst := roundForCurrency (tax - cgst) currency
  { cgst := cgst, sgst := sgst }

/-- A line item produced by one of the two line-item constructors, at a
currency whose scale is at most `dp` decimal places. -/
def ProducedLineItem (dp : ℕ) (it : LineItemResult) : Prop :=
  (∃ input : LineItemInput,
      it = calculateLineItem input ∧
      getCurrencyDecimalPlaces (validateLineItemInput input).currency ≤ dp) ∨
  (∃ (t q r d : ℚ) (c : String) (res : EnteredTotalLineItemResult),
      calculateLineItemFromTotal t q r d c = some res ∧
      it = res.toLineItemResult ∧
      getCurrencyDecimalPlaces c ≤ dp)

/-- The concrete result of `calculateLineItemFromTotal(1180, 1, 18, 0, 'INR')`
(the spec's clean entered-total example). -/
def enteredResult1180 : EnteredTotalLineItemResult :=
  { input := ⟨1000, 1, 0, 18⟩
    calculated := ⟨1000, 1000, 180, 1180⟩
    roundingAdjustment := 0
    currency := "INR"
    decimalPlaces := 2
    exactUnitPrice := 1000
    displayedUnitPrice := 1000
    recomputedTotal := 1180
    hasAdjustment := false }

/-- The concrete result of `calculateLineItemFromTotal(0.005, 1, 0, 0, 'INR')`:
the entered total 0.005 is not representable at the INR scale, so every
stored amount collapses to 0. -/
def enteredResultHalfCent : EnteredTotalLineItemResult :=
  { input := ⟨0, 1, 0, 0⟩
    calculated := ⟨0, 0, 0, 0⟩
    roundingAdjustment := 0
    currency := "INR"
    decimalPlaces := 2
    exactUnitPrice := 0
    displayedUnitPrice := 0
    recomputedTotal := 0
    hasAdjustment := false }

/-! ## Scale predicate: values representable at a number of decimal places -/

/-- `atScale d q`: `q` is an integer multiple of the minor unit `10 ^ (-d)`,
i.e. `q` is exactly representable with `d` decimal places. -/
def atScale (d : ℕ) (q : ℚ) : Prop := ((⌊q * 10 ^ d⌋ : ℚ) = q * 10 ^ d)

instance (d : ℕ) (q : ℚ) : Decidable (atScale d q) :=
  inferInstanceAs (Decidable ((⌊q * 10 ^ d⌋ : ℚ) = q * 10 ^ d))

theorem pow_ten_ne_zero (d : ℕ) : ((10 : ℚ) ^ d) ≠ 0 :=
  pow_ne_zero d (by norm_num)

theorem atScale_iff {d : ℕ} {q : ℚ} :
    atScale d q ↔ ∃ z : ℤ, q = (z : ℚ) / 10 ^ d := by
  constructor
  · intro h
    refine ⟨⌊q * 10 ^ d⌋, ?_⟩
    rw [h, mul_div_cancel_right₀ _ (pow_ten_ne_zero d)]
  · rintro ⟨z, rfl⟩
    unfold atScale
    rw [div_mul_cancel₀ _ (pow_ten_ne_zero d), Int.floor_intCast]

theorem atScale_zero (d : ℕ) : atScale d 0 :=
  atScale_iff.mpr ⟨0, by simp⟩

theorem atScale_add {d : ℕ} {a b : ℚ} (ha : atScale d a) (hb : atScale d b) :
    atScale d (a + b) := by
  obtain ⟨za, rfl⟩ := atScale_iff.mp ha
  obtain ⟨zb, rfl⟩ := atScale_iff.mp hb
  exact atScale_iff.mpr ⟨za + zb, by push_cast; rw [div_add_div_same]⟩

theorem atScale_neg {d : ℕ} {a : ℚ} (ha : atScale d a) : atScale d (-a) := by
  obtain ⟨za, rfl⟩ := atScale_iff.mp ha
  exact atScale_iff.mpr ⟨-za, by push_cast; rw [neg_div]⟩

theorem atScale_sub {d : ℕ} {a b : ℚ} (ha : atScale d a) (hb : atScale d b) :
    atScale d (a - b) := by
  rw [sub_eq_add_neg]
  exact atScale_add ha (atScale_neg hb)

theorem atScale_listSum {d : ℕ} {l : List ℚ} (h : ∀ q ∈ l, atScale d q) :
    atScale d l.sum := by
  induction l with
  | nil => simpa using atScale_zero d
  | cons a l ih =>
    rw [List.sum_cons]
    exact atScale_add (h a (List.mem_cons_self a l))
      (ih fun q hq => h q (List.mem_cons_of_mem a hq))

theorem atScale_mono {d d' : ℕ} {q : ℚ} (hdd : d ≤ d') (h : atScale d q) :
    atScale d' q := by
  obtain ⟨z, rfl⟩ := atScale_iff.mp h
  refine atScale_iff.mpr ⟨z * 10 ^ (d' - d), ?_⟩
  have hsplit : (10 : ℚ) ^ d' = 10 ^ d * 10 ^ (d' - d) := by
    rw [← pow_add, Nat.add_sub_cancel' hdd]
  push_cast
  rw [hsplit, ← div_div, mul_comm (z : ℚ) _, mul_div_assoc, mul_comm,
    mul_div_assoc, div_self (pow_ten_ne_zero (d' - d)), mul_one]

theorem atScale_intCast (d : ℕ) (z : ℤ) : atScale d (z : ℚ) := by
  refine atScale_iff.mpr ⟨z * 10 ^ d, ?_⟩
  push_cast
  rw [mul_div_cancel_right₀ _ (pow_ten_ne_zero d)]

theorem atScale_half {d : ℕ} {q : ℚ} (h : atScale d q) :
    atScale (d + 1) (q / 2) := by
  obtain ⟨z, rfl⟩ := atScale_iff.mp h
  refine atScale_iff.mpr ⟨5 * z, ?_⟩
  push_cast
  rw [pow_succ]
  rw [div_div]
  rw [div_eq_div_iff (by positivity) (by positivity)]
  ring

/-! ## Rounding identities -/

theorem rint_intCast (mode : RoundingMode) (z : ℤ) : rint mode (z : ℚ) = z := by
  cases mode <;> simp [rint, Int.floor_intCast, Int.ceil_intCast]

theorem preciseRound_eq_self {d : ℕ} {q : ℚ} (mode : RoundingMode)
    (h : atScale d q) : preciseRound q d mode = q := by
  obtain ⟨z, rfl⟩ := atScale_iff.mp h
  unfold preciseRound
  rw [div_mul_cancel₀ _ (pow_ten_ne_zero d), rint_intCast]

theorem atScale_preciseRound (d : ℕ) (q : ℚ) (mode : RoundingMode) :
    atScale d (preciseRound q d mode) :=
  atScale_iff.mpr ⟨rint mode (q * 10 ^ d), rfl⟩

theorem atScale_roundForCurrency (q : ℚ) (c : String) :
    atScale (getCurrencyDecimalPlaces c) (roundForCurrency q c) :=
  atScale_preciseRound _ q _

theorem roundForCurrency_eq_self {q : ℚ} {c : String}
    (h : atScale (getCurrencyDecimalPlaces c) q) : roundForCurrency q c = q :=
  preciseRound_eq_self _ h

theorem lookup_snd_bound (l : List (String × ℕ)) (k : String)
    (hall : ∀ p ∈ l, p.2 ≤ 3) :
    ((l.lookup k).getD DEFAULT_DECIMAL_PLACES) ≤ 3 := by
  induction l with
  | nil => simp [List.lookup, DEFAULT_DECIMAL_PLACES]
  | cons a l ih =>
    obtain ⟨ka, va⟩ := a
    rw [List.lookup]
    split
    · simpa using hall (ka, va) (List.mem_cons_self _ l)
    · exact ih fun p hp => hall p (List.mem_cons_of_mem _ hp)

/-- Every registered (or fallback) currency scale is at most 3 decimal
places. -/
theorem getCurrencyDecimalPlaces_le_three (c : String) :
    getCurrencyDecimalPlaces c ≤ 3 :=
  lookup_snd_bound CURRENCY_DECIMAL_PLACES (toUpperString c) (by decide)

/-! ## Structural facts about the derived-mode line item -/

theorem calculateLineItem_currency (input : LineItemInput) :
    (calculateLineItem input).currency = (validateLineItemInput input).currency := rfl

theorem calculateLineItem_adjustment (input : LineItemInput) :
    (calculateLineItem input).roundingAdjustment = 0 := rfl

theorem calculateLineItem_gross (input : LineItemInput) :
    (calculateLineItem input).calculated.grossAmount =
      roundForCurrency
        ((validateLineItemInput input).unitPrice
          * ((validateLineItemInput input).quantity : ℚ))
        (validateLineItemInput input).currency := rfl

theorem calculateLineItem_taxable (input : LineItemInput) :
    (calculateLineItem input).calculated.taxableAmount =
      roundForCurrency
        ((calculateLineItem input).calculated.grossAmount
          - (if (calculateLineItem input).calculated.grossAmount
                < (validateLineItemInput input).discountAmount then
              (calculateLineItem input).calculated.grossAmount
            else (validateLineItemInput input).discountAmount))
        (validateLineItemInput input).currency := rfl

theorem calculateLineItem_tax (input : LineItemInput) :
    (calculateLineItem input).calculated.taxAmount =
      roundForCurrency
        (precisePercentage (calculateLineItem input).calculated.taxableAmount
          (validateLineItemInput input).taxRate)
        (validateLineItemInput input).currency := rfl

theorem calculateLineItem_total (input : LineItemInput) :
    (calculateLineItem input).calculated.total =
      roundForCurrency
        ((calculateLineItem input).calculated.taxableAmount
          + (calculateLineItem input).calculated.taxAmount)
        (validateLineItemInput input).currency := rfl

theorem calculateLineItem_taxable_atScale (input : LineItemInput) :
    atScale (getCurrencyDecimalPlaces (validateLineItemInput input).currency)
      (calculateLineItem input).calculated.taxableAmount := by
  rw [calculateLineItem_taxable]
  exact atScale_roundForCurrency _ _

theorem calculateLineItem_tax_atScale (input : LineItemInput) :
    atScale (getCurrencyDecimalPlaces (validateLineItemInput input).currency)
      (calculateLineItem input).calculated.taxAmount := by
  rw [calculateLineItem_tax]
  exact atScale_roundForCurrency _ _

/-- In derived mode the (rounded) taxable amount plus the (rounded) tax
amount is already at currency scale, so the final rounding of the total is
the identity: `total = taxableAmount + taxAmount` exactly. -/
theorem calculateLineItem_total_eq (input : LineItemInput) :
    (calculateLineItem input).calculated.total =
      (calculateLineItem input).calculated.taxableAmount
        + (calculateLineItem input).calculated.taxAmount := by
  rw [calculateLineItem_total]
  exact roundForCurrency_eq_self
    (atScale_add (calculateLineItem_taxable_atScale input)
      (calculateLineItem_tax_atScale input))

theorem calculateLineItem_total_atScale (input : LineItemInput) :
    atScale (getCurrencyDecimalPlaces (validateLineItemInput input).currency)
      (calculateLineItem input).calculated.total := by
  rw [calculateLineItem_total]
  exact atScale_roundForCurrency _ _

/-! ## Structural facts about the entered-total line item -/

/-- Everything the claims need about a successful
`calculateLineItemFromTotal` call: the stored total is the rounded entered
total, the adjustment is the stored total minus the recomputed total, the
adjustment flag is the adjustment's nonzero test, the stored taxable and
tax amounts sum to the recomputed total, and the currency is passed
through. -/
theorem calculateLineItemFromTotal_spec {t q r d : ℚ} {c : String}
    {res : EnteredTotalLineItemResult}
    (h : calculateLineItemFromTotal t q r d c = some res) :
    res.calculated.total = roundForCurrency t c ∧
    res.roundingAdjustment = res.calculated.total - res.recomputedTotal ∧
    (res.hasAdjustment = true ↔ res.roundingAdjustment ≠ 0) ∧
    res.calculated.taxableAmount + res.calculated.taxAmount = res.recomputedTotal ∧
    res.currency = c := by
  unfold calculateLineItemFromTotal at h
  dsimp only at h
  rw [Option.bind_eq_some] at h
  obtain ⟨a, -, h⟩ := h
  rw [Option.bind_eq_some] at h
  obtain ⟨b, -, h⟩ := h
  rw [Option.bind_eq_some] at h
  obtain ⟨e, -, h⟩ := h
  rw [Option.some_inj] at h
  subst h
  exact ⟨rfl, rfl, by simp, (calculateLineItem_total_eq _).symm, rfl⟩

/-! ## The residual-redistribution loop -/

theorem sum_set_add (l : List ℚ) (i : ℕ) (x : ℚ) (h : i < l.length) :
    (l.set i (l.getD i 0 + x)).sum = l.sum + x := by
  induction l generalizing i with
  | nil => simp at h
  | cons a l ih =>
    cases i with
    | zero => simp [List.sum_cons]; ring
    | succ i =>
      rw [List.set_cons_succ, List.getD_cons_succ, List.sum_cons, List.sum_cons,
        ih i (by simpa using h)]
      ring

theorem wrapAdd_length (inc : ℚ) (m : ℕ) :
    ∀ (idx : ℕ) (l : List ℚ), (wrapAdd inc idx m l).length = l.length := by
  induction m with
  | zero => intro idx l; rfl
  | succ m ih =>
    intro idx l
    rw [wrapAdd, ih, List.length_set]

theorem wrapAdd_sum (inc : ℚ) (m : ℕ) :
    ∀ (idx : ℕ) (l : List ℚ), l ≠ [] →
      (wrapAdd inc idx m l).sum = l.sum + m * inc := by
  induction m with
  | zero => intro idx l _; simp [wrapAdd]
  | succ m ih =>
    intro idx l hl
    have hlen : 0 < l.length := List.length_pos.mpr hl
    have hidx : idx % l.length < l.length := Nat.mod_lt _ hlen
    have hne : l.set (idx % l.length) (l.getD (idx % l.length) 0 + inc) ≠ [] := by
      intro hcon
      rw [← List.length_eq_zero, List.length_set] at hcon
      omega
    rw [wrapAdd, ih _ _ hne, sum_set_add _ _ _ hidx]
    push_cast
    ring

theorem distLoop_eq_wrapAdd {inc : ℚ} (hinc : inc ≠ 0) (fuel : ℕ) :
    ∀ (m idx : ℕ) (l : List ℚ) (diff : ℚ), diff = (m : ℚ) * inc → m ≤ fuel →
      distLoop inc fuel idx l diff = wrapAdd inc idx m l := by
  induction fuel with
  | zero =>
    intro m idx l diff hdiff hm
    interval_cases m
    rfl
  | succ fuel ih =>
    intro m idx l diff hdiff hm
    rw [distLoop]
    split
    · rename_i hzero
      rw [hdiff] at hzero
      rcases mul_eq_zero.mp hzero with hm0 | hbad
      · have : m = 0 := by exact_mod_cast hm0
        subst this
        rfl
      · exact absurd hbad hinc
    · rename_i hnz
      cases m with
      | zero => simp [hdiff] at hnz
      | succ m =>
        rw [wrapAdd]
        exact ih m (idx + 1) _ (diff - inc)
          (by rw [hdiff]; push_cast; ring) (by omega)

/-! ## Registry facts and concrete evaluations shared by the claims -/

theorem dpINR : getCurrencyDecimalPlaces "INR" = 2 := by decide

theorem dpUSD : getCurrencyDecimalPlaces "USD" = 2 := by decide

theorem dpKWD : getCurrencyDecimalPlaces "KWD" = 3 := by decide

theorem validate_1000_eval :
    validateLineItemInput ⟨1000, 2, 0, 18, "INR"⟩ = ⟨1000, 2, 0, 18, "INR", true, []⟩ := by
  norm_num [validateLineItemInput, mathClamp, preciseClamp, MAX_SAFE_INTEGER]

theorem lineItem_1000_eval :
    calculateLineItem ⟨1000, 2, 0, 18, "INR"⟩ =
      { input := ⟨1000, 2, 0, 18⟩
        calculated := ⟨2000, 2000, 360, 2360⟩
        roundingAdjustment := 0
        currency := "INR"
        decimalPlaces := 2 } := by
  norm_num [calculateLineItem, validate_1000_eval, dpINR, roundForCurrency, round,
    preciseRound, rint, DEFAULT_ROUNDING_MODE, precisePercentage, Int.fract,
    -Int.self_sub_floor]

set_option maxHeartbeats 2000000 in
theorem fromTotal_1180_eval :
    calculateLineItemFromTotal 1180 1 18 0 "INR" = some enteredResult1180 := by
  have hval : validateLineItemInput ⟨1000, 1, 0, 18, "INR"⟩ =
      ⟨1000, 1, 0, 18, "INR", true, []⟩ := by
    norm_num [validateLineItemInput, mathClamp, preciseClamp, MAX_SAFE_INTEGER]
  have hrec : calculateLineItem ⟨1000, 1, 0, 18, "INR"⟩ =
      { input := ⟨1000, 1, 0, 18⟩
        calculated := ⟨1000, 1000, 180, 1180⟩
        roundingAdjustment := 0
        currency := "INR"
        decimalPlaces := 2 } := by
    norm_num [calculateLineItem, hval, dpINR, roundForCurrency, round, preciseRound,
      rint, DEFAULT_ROUNDING_MODE, precisePercentage, Int.fract, -Int.self_sub_floor]
  norm_num [calculateLineItemFromTotal, preciseDivide, dpINR, roundForCurrency, round,
    preciseRound, rint, DEFAULT_ROUNDING_MODE, Int.fract, -Int.self_sub_floor, hrec,
    enteredResult1180]

set_option maxHeartbeats 2000000 in
theorem fromTotal_halfCent_eval :
    calculateLineItemFromTotal (1/200) 1 0 0 "INR" = some enteredResultHalfCent := by
  have hval : validateLineItemInput ⟨0, 1, 0, 0, "INR"⟩ =
      ⟨0, 1, 0, 0, "INR", true, []⟩ := by
    norm_num [validateLineItemInput, mathClamp, preciseClamp, MAX_SAFE_INTEGER]
  have hrec : calculateLineItem ⟨0, 1, 0, 0, "INR"⟩ =
      { input := ⟨0, 1, 0, 0⟩
        calculated := ⟨0, 0, 0, 0⟩
        roundingAdjustment := 0
        currency := "INR"
        decimalPlaces := 2 } := by
    norm_num [calculateLineItem, hval, dpINR, roundForCurrency, round, preciseRound,
      rint, DEFAULT_ROUNDING_MODE, precisePercentage, Int.fract, -Int.self_sub_floor]
  norm_num [calculateLineItemFromTotal, preciseDivide, dpINR, roundForCurrency, round,
    preciseRound, rint, DEFAULT_ROUNDING_MODE, Int.fract, -Int.self_sub_floor, hrec,
    enteredResultHalfCent]

theorem validate_kwd_eval :
    validateLineItemInput ⟨1/1000, 1, 0, 0, "KWD"⟩ = ⟨1/1000, 1, 0, 0, "KWD", true, []⟩ := by
  norm_num [validateLineItemInput, mathClamp, preciseClamp, MAX_SAFE_INTEGER,
    show (("KWD" : String) = "") = False from by simp]

theorem lineItem_kwd_eval :
    calculateLineItem ⟨1/1000, 1, 0, 0, "KWD"⟩ =
      { input := ⟨1/1000, 1, 0, 0⟩
        calculated := ⟨1/1000, 1/1000, 0, 1/1000⟩
        roundingAdjustment := 0
        currency := "KWD"
        decimalPlaces := 3 } := by
  norm_num [calculateLineItem, validate_kwd_eval, dpKWD, roundForCurrency, round,
    preciseRound, rint, DEFAULT_ROUNDING_MODE, precisePercentage, Int.fract,
    -Int.self_sub_floor]

/-! ## Aggregation and integrity projection lemmas -/

theorem aggregateLineItems_items (items : List LineItemResult) (c : String) :
    (aggregateLineItems items c).items = items := by
  unfold aggregateLineItems
  split
  · rename_i h; simp [h]
  · rfl

theorem aggregateLineItems_currency (items : List LineItemResult) (c : String) :
    (aggregateLineItems items c).currency = c := by
  unfold aggregateLineItems
  split <;> rfl

theorem aggregateLineItems_grandTotal (items : List LineItemResult) (c : String) :
    (aggregateLineItems items c).grandTotal =
      roundForCurrency (items.map fun it => it.calculated.total).sum c := by
  unfold aggregateLineItems
  split
  · rename_i h
    subst h
    rw [List.map_nil, List.sum_nil]
    exact (roundForCurrency_eq_self (atScale_zero _)).symm
  · rfl

theorem verifyInvoiceIntegrity_errors (aggregation : InvoiceAggregation) :
    (verifyInvoiceIntegrity aggregation).errors =
      verifyLines aggregation.currency 0 aggregation.items
        ++ (if aggregation.grandTotal ≠
              roundForCurrency (aggregation.items.map fun item => item.calculated.total).sum
                aggregation.currency then
            [IntegrityError.grandTotalMismatch aggregation.grandTotal
              (roundForCurrency (aggregation.items.map fun item => item.calculated.total).sum
                aggregation.currency)]
          else []) := rfl

theorem verifyInvoiceIntegrity_isValid (aggregation : InvoiceAggregation) :
    (verifyInvoiceIntegrity aggregation).isValid =
      (verifyInvoiceIntegrity aggregation).errors.isEmpty := rfl

theorem verifyLines_eq_nil {c : String} {items : List LineItemResult}
    (h : ∀ it ∈ items, it.calculated.total =
      roundForCurrency
        (it.calculated.taxableAmount + it.calculated.taxAmount + it.roundingAdjustment) c) :
    ∀ i, verifyLines c i items = [] := by
  induction items with
  | nil => intro i; rfl
  | cons a rest ih =>
    intro i
    rw [verifyLines]
    rw [if_neg (by
      intro hcon
      exact hcon (h a (List.mem_cons_self a rest)))]
    rw [List.nil_append]
    exact ih (fun it hit => h it (List.mem_cons_of_mem a hit)) (i + 1)

/-- Both line-item constructors produce rows whose taxable + tax +
adjustment columns sum exactly to the stored total, at a scale no finer
than the requested one. -/
theorem produced_consistent {dp : ℕ} {it : LineItemResult}
    (h : ProducedLineItem dp it) :
    it.calculated.taxableAmount + it.calculated.taxAmount + it.roundingAdjustment =
      it.calculated.total ∧
    atScale dp it.calculated.total := by
  rcases h with ⟨input, rfl, hdp⟩ | ⟨t, q, r, d, c, res, hsome, rfl, hdp⟩
  · constructor
    · rw [calculateLineItem_adjustment, add_zero]
      exact (calculateLineItem_total_eq input).symm
    · exact atScale_mono hdp (calculateLineItem_total_atScale input)
  · obtain ⟨htot, hadj, -, hsum, -⟩ := calculateLineItemFromTotal_spec hsome
    constructor
    · rw [hadj, hsum]
      ring
    · rw [htot]
      exact atScale_mono hdp (atScale_roundForCurrency t c)

/-! ## The claims -/

/-- Claim C1: every `LineItemResult` of `calculateLineItem` satisfies
`calculated.total = taxableAmount + taxAmount + roundingAdjustment` exactly
at currency scale, and every `EnteredTotalLineItemResult` returned by
`calculateLineItemFromTotal` satisfies the same equation. -/
theorem claim1_line_total_invariant :
    (∀ input : LineItemInput,
        (calculateLineItem input).calculated.total =
          (calculateLineItem input).calculated.taxableAmount
            + (calculateLineItem input).calculated.taxAmount
            + (calculateLineItem input).roundingAdjustment) ∧
    (∀ (enteredTotal quantity taxRate discountAmount : ℚ) (currency : String)
        (res : EnteredTotalLineItemResult),
        calculateLineItemFromTotal enteredTotal quantity taxRate discountAmount
            currency = some res →
        res.calculated.total =
          res.calculated.taxableAmount + res.calculated.taxAmount
            + res.roundingAdjustment) := by
  constructor
  · intro input
    rw [calculateLineItem_adjustment, add_zero]
    exact calculateLineItem_total_eq input
  · intro t q r d c res h
    obtain ⟨-, hadj, -, hsum, -⟩ := calculateLineItemFromTotal_spec h
    rw [hadj, hsum]
    ring

/-- Witness for C1 at the spec's entered-total example
`calculateLineItemFromTotal(1180, 1, 18, 0, 'INR')`. -/
theorem claim1_line_total_invariant_witness :
    calculateLineItemFromTotal 1180 1 18 0 "INR" = some enteredResult1180 ∧
    enteredResult1180.calculated.total =
      enteredResult1180.calculated.taxableAmount
        + enteredResult1180.calculated.taxAmount
        + enteredResult1180.roundingAdjustment :=
  ⟨fromTotal_1180_eval,
    claim1_line_total_invariant.2 1180 1 18 0 "INR" enteredResult1180 fromTotal_1180_eval⟩

/-- Claim C2: when the residual `targetTotal - sum(rounded values)` is an
integer number `k` of minor units with `|k| ≤ 10 n`, the redistribution
returns a list of the same length summing exactly to the target, obtained
by adding one signed minor-unit increment at a time at indices
0, 1, 2, … wrapping (`wrapAdd`), the increment's sign matching the
residual's sign. -/
theorem claim2_distribute_conserves (values : List ℚ) (targetTotal : ℚ)
    (decimalPlaces : ℕ) (k : ℤ) (hne : values ≠ []) (hdp : 1 ≤ decimalPlaces)
    (hres : targetTotal
        - (values.map fun v => round v decimalPlaces DEFAULT_ROUNDING_MODE).sum
      = (k : ℚ) * minorUnit decimalPlaces)
    (hk : k.natAbs ≤ 10 * values.length) :
    ∃ out, distributeRoundingAdjustment values targetTotal decimalPlaces = some out ∧
      out = wrapAdd
              (if 0 < k then minorUnit decimalPlaces else -(minorUnit decimalPlaces)) 0
              k.natAbs (values.map fun v => round v decimalPlaces DEFAULT_ROUNDING_MODE) ∧
      out.length = values.length ∧
      out.sum = targetTotal := by
  have hu : (0 : ℚ) < minorUnit decimalPlaces := by unfold minorUnit; positivity
  have hrne : (values.map fun v => round v decimalPlaces DEFAULT_ROUNDING_MODE) ≠ [] :=
    fun hcon => hne (List.map_eq_nil_iff.mp hcon)
  unfold distributeRoundingAdjustment
  rw [if_neg hne]
  dsimp only
  by_cases hzero : targetTotal
      - (values.map fun v => round v decimalPlaces DEFAULT_ROUNDING_MODE).sum = 0
  · have hku : (k : ℚ) * minorUnit decimalPlaces = 0 := by rw [← hres, hzero]
    have hk0 : k = 0 := by
      rcases mul_eq_zero.mp hku with h | h
      · exact_mod_cast h
      · exact absurd h (ne_of_gt hu)
    subst hk0
    rw [if_pos hzero]
    refine ⟨_, rfl, rfl, List.length_map _ _, ?_⟩
    linarith
  · rw [if_neg hzero]
    have hsome : incrementForScale decimalPlaces = some (minorUnit decimalPlaces) := by
      unfold incrementForScale
      rw [if_neg (by omega)]
    rw [hsome]
    dsimp only
    have hkne : k ≠ 0 := by
      intro hcon
      subst hcon
      rw [hres] at hzero
      simp at hzero
    have hiff : (0 < targetTotal
        - (values.map fun v => round v decimalPlaces DEFAULT_ROUNDING_MODE).sum) ↔ 0 < k := by
      rw [hres]
      constructor
      · intro hpos
        by_contra hneg
        push_neg at hneg
        have hcast : (k : ℚ) ≤ 0 := by exact_mod_cast hneg
        nlinarith
      · intro hkpos
        exact mul_pos (by exact_mod_cast hkpos) hu
    have hinceq :
        (if 0 < targetTotal
            - (values.map fun v => round v decimalPlaces DEFAULT_ROUNDING_MODE).sum then
          minorUnit decimalPlaces else -(minorUnit decimalPlaces)) =
        (if 0 < k then minorUnit decimalPlaces else -(minorUnit decimalPlaces)) :=
      if_congr hiff rfl rfl
    have hincne : (if 0 < k then minorUnit decimalPlaces else -(minorUnit decimalPlaces)) ≠ 0 := by
      split
      · exact ne_of_gt hu
      · exact neg_ne_zero.mpr (ne_of_gt hu)
    have hdiffm : targetTotal
        - (values.map fun v => round v decimalPlaces DEFAULT_ROUNDING_MODE).sum =
        (k.natAbs : ℚ) *
          (if 0 < k then minorUnit decimalPlaces else -(minorUnit decimalPlaces)) := by
      rw [hres]
      rcases lt_trichotomy k 0 with hneg | hzk | hpos
      · rw [if_neg (not_lt.mpr hneg.le), Int.cast_natAbs, abs_of_neg hneg]
        push_cast
        ring
      · exact absurd hzk hkne
      · rw [if_pos hpos, Int.cast_natAbs, abs_of_pos hpos]
    rw [hinceq]
    have hloop := distLoop_eq_wrapAdd hincne
      ((values.map fun v => round v decimalPlaces DEFAULT_ROUNDING_MODE).length * 10)
      k.natAbs 0 (values.map fun v => round v decimalPlaces DEFAULT_ROUNDING_MODE)
      (targetTotal - (values.map fun v => round v decimalPlaces DEFAULT_ROUNDING_MODE).sum)
      hdiffm (by rw [List.length_map]; omega)
    refine ⟨_, rfl, hloop, ?_, ?_⟩
    · rw [hloop, wrapAdd_length, List.length_map]
    · rw [hloop, wrapAdd_sum _ _ _ _ hrne, ← hdiffm]
      ring

/-- The 10/3 example: rounding three thirds of 10 at two decimal places
leaves a residual of exactly one minor unit. -/
theorem thirds_residual :
    (10 : ℚ) - ([(10 : ℚ)/3, 10/3, 10/3].map fun v => round v 2 DEFAULT_ROUNDING_MODE).sum
      = ((1 : ℤ) : ℚ) * minorUnit 2 := by
  norm_num [round, preciseRound, rint, DEFAULT_ROUNDING_MODE, minorUnit, Int.fract,
    -Int.self_sub_floor]

/-- Witness for C2: distributing 10 over three rounded thirds at scale 2
conserves the total. -/
theorem claim2_distribute_conserves_witness :
    ([(10 : ℚ)/3, 10/3, 10/3] : List ℚ) ≠ [] ∧ 1 ≤ 2 ∧
    ((10 : ℚ) - ([(10 : ℚ)/3, 10/3, 10/3].map fun v => round v 2 DEFAULT_ROUNDING_MODE).sum
      = ((1 : ℤ) : ℚ) * minorUnit 2) ∧
    (1 : ℤ).natAbs ≤ 10 * ([(10 : ℚ)/3, 10/3, 10/3] : List ℚ).length ∧
    ((distributeRoundingAdjustment [(10 : ℚ)/3, 10/3, 10/3] 10 2).getD []).sum = 10 := by
  refine ⟨by simp, by norm_num, thirds_residual, by simp, ?_⟩
  obtain ⟨out, hout, -, -, hsum⟩ :=
    claim2_distribute_conserves [(10 : ℚ)/3, 10/3, 10/3] 10 2 1 (by simp) (by norm_num)
      thirds_residual (by simp)
  rw [hout, Option.getD_some]
  exact hsum

/-- Counterexample to C3 as stated: a line item produced at a finer scale
(KWD, 3 decimals) aggregated under INR (2 decimals) makes the grand total
differ from the exact sum of line totals. -/
theorem claim3_grand_total_counterexample :
    (aggregateLineItems [calculateLineItem ⟨1/1000, 1, 0, 0, "KWD"⟩] "INR").grandTotal
      ≠ [(calculateLineItem ⟨1/1000, 1, 0, 0, "KWD"⟩).calculated.total].sum := by
  rw [aggregateLineItems_grandTotal, lineItem_kwd_eval]
  norm_num [roundForCurrency, round, preciseRound, rint, DEFAULT_ROUNDING_MODE, dpINR,
    Int.fract, -Int.self_sub_floor]

/-- Claim C3, amended: for every non-empty list of line items whose totals
are representable at the aggregation currency's scale (as the line-item
engine guarantees for that currency), the grand total equals the exact sum
of the line totals. -/
theorem claim3_grand_total_amended (items : List LineItemResult) (c : String)
    (_hne : items ≠ [])
    (h : ∀ it ∈ items, atScale (getCurrencyDecimalPlaces c) it.calculated.total) :
    (aggregateLineItems items c).grandTotal =
      (items.map fun it => it.calculated.total).sum := by
  rw [aggregateLineItems_grandTotal]
  refine roundForCurrency_eq_self (atScale_listSum ?_)
  intro q hq
  rw [List.mem_map] at hq
  obtain ⟨it, hit, rfl⟩ := hq
  exact h it hit

/-- Witness for amended C3 on a derived-mode INR line item. -/
theorem claim3_grand_total_amended_witness :
    ([calculateLineItem ⟨1000, 2, 0, 18, "INR"⟩] : List LineItemResult) ≠ [] ∧
    atScale (getCurrencyDecimalPlaces "INR")
      (calculateLineItem ⟨1000, 2, 0, 18, "INR"⟩).calculated.total ∧
    (aggregateLineItems [calculateLineItem ⟨1000, 2, 0, 18, "INR"⟩] "INR").grandTotal
      = ([calculateLineItem ⟨1000, 2, 0, 18, "INR"⟩].map fun it => it.calculated.total).sum := by
  have hsc : atScale (getCurrencyDecimalPlaces "INR")
      (calculateLineItem ⟨1000, 2, 0, 18, "INR"⟩).calculated.total := by
    rw [lineItem_1000_eval]
    norm_num [atScale, dpINR]
  refine ⟨by simp, hsc, ?_⟩
  apply claim3_grand_total_amended _ _ (by simp)
  intro it hit
  rw [List.mem_singleton] at hit
  subst hit
  exact hsc

/-- Counterexample to C4 as stated: aggregating a KWD-produced line item
under INR makes the integrity check fail, so "every currency" is too
strong. -/
theorem claim4_round_trip_counterexample :
    (verifyInvoiceIntegrity
        (aggregateLineItems [calculateLineItem ⟨1/1000, 1, 0, 0, "KWD"⟩] "INR")).errors ≠ [] ∧
    (verifyInvoiceIntegrity
        (aggregateLineItems [calculateLineItem ⟨1/1000, 1, 0, 0, "KWD"⟩] "INR")).isValid
      = false := by
  norm_num [verifyInvoiceIntegrity, verifyLines, aggregateLineItems, lineItem_kwd_eval,
    dpINR, roundForCurrency, round, preciseRound, rint, DEFAULT_ROUNDING_MODE,
    Int.fract, -Int.self_sub_floor]

/-- Claim C4, amended: verifying an aggregation of line items each produced
by `calculateLineItem` or `calculateLineItemFromTotal` at a currency whose
scale is at most the aggregation currency's scale yields an empty error
list. -/
theorem claim4_round_trip_amended (items : List LineItemResult) (c : String)
    (h : ∀ it ∈ items, ProducedLineItem (getCurrencyDecimalPlaces c) it) :
    (verifyInvoiceIntegrity (aggregateLineItems items c)).errors = [] ∧
    (verifyInvoiceIntegrity (aggregateLineItems items c)).isValid = true := by
  have herr : (verifyInvoiceIntegrity (aggregateLineItems items c)).errors = [] := by
    rw [verifyInvoiceIntegrity_errors, aggregateLineItems_items,
      aggregateLineItems_currency, aggregateLineItems_grandTotal]
    rw [if_neg (fun hcon => hcon rfl), List.append_nil]
    refine verifyLines_eq_nil ?_ 0
    intro it hit
    obtain ⟨hsum, hsc⟩ := produced_consistent (h it hit)
    rw [hsum, roundForCurrency_eq_self hsc]
  refine ⟨herr, ?_⟩
  rw [verifyInvoiceIntegrity_isValid, herr]
  rfl

/-- Witness for amended C4 on a derived-mode USD line item aggregated under
USD. -/
theorem claim4_round_trip_amended_witness :
    ProducedLineItem (getCurrencyDecimalPlaces "USD")
      (calculateLineItem ⟨5, 3, 1, 12, "USD"⟩) ∧
    (verifyInvoiceIntegrity
        (aggregateLineItems [calculateLineItem ⟨5, 3, 1, 12, "USD"⟩] "USD")).errors = [] ∧
    (verifyInvoiceIntegrity
        (aggregateLineItems [calculateLineItem ⟨5, 3, 1, 12, "USD"⟩] "USD")).isValid
      = true := by
  have hprod : ProducedLineItem (getCurrencyDecimalPlaces "USD")
      (calculateLineItem ⟨5, 3, 1, 12, "USD"⟩) :=
    Or.inl ⟨⟨5, 3, 1, 12, "USD"⟩, rfl, by
      norm_num [validateLineItemInput, dpUSD,
        show (("USD" : String) = "") = False from eq_false (by decide)]⟩
  have hmain := claim4_round_trip_amended [calculateLineItem ⟨5, 3, 1, 12, "USD"⟩] "USD"
    (by
      intro it hit
      rw [List.mem_singleton] at hit
      subst hit
      exact hprod)
  exact ⟨hprod, hmain.1, hmain.2⟩

/-- Counterexample to C5 as stated: an entered total of 0.005 INR is not
returned as `calculated.total`; the stored total is the entered total
rounded to currency scale (0.00), not the entered total itself. -/
theorem claim5_entered_total_counterexample :
    calculateLineItemFromTotal (1/200) 1 0 0 "INR" = some enteredResultHalfCent ∧
    enteredResultHalfCent.calculated.total ≠ 1/200 :=
  ⟨fromTotal_halfCent_eval, by norm_num [enteredResultHalfCent]⟩

/-- Claim C5, amended: in entered-total mode the returned `calculated.total`
is the entered total rounded to currency scale (not the recomputed one),
`roundingAdjustment` is that stored total minus the recomputed total, and
`hasAdjustment` holds exactly when the adjustment is nonzero. -/
theorem claim5_entered_total_amended (enteredTotal quantity taxRate discountAmount : ℚ)
    (currency : String) (res : EnteredTotalLineItemResult)
    (h : calculateLineItemFromTotal enteredTotal quantity taxRate discountAmount
        currency = some res) :
    res.calculated.total = roundForCurrency enteredTotal currency ∧
    res.roundingAdjustment = roundForCurrency enteredTotal currency - res.recomputedTotal ∧
    (res.hasAdjustment = true ↔ res.roundingAdjustment ≠ 0) := by
  obtain ⟨htot, hadj, hflag, -, -⟩ := calculateLineItemFromTotal_spec h
  exact ⟨htot, by rw [hadj, htot], hflag⟩

/-- Witness for amended C5 at `calculateLineItemFromTotal(1180, 1, 18, 0,
'INR')`. -/
theorem claim5_entered_total_amended_witness :
    calculateLineItemFromTotal 1180 1 18 0 "INR" = some enteredResult1180 ∧
    enteredResult1180.calculated.total = roundForCurrency 1180 "INR" ∧
    enteredResult1180.roundingAdjustment =
      roundForCurrency 1180 "INR" - enteredResult1180.recomputedTotal ∧
    (enteredResult1180.hasAdjustment = true ↔ enteredResult1180.roundingAdjustment ≠ 0) :=
  ⟨fromTotal_1180_eval,
    claim5_entered_total_amended 1180 1 18 0 "INR" enteredResult1180 fromTotal_1180_eval⟩

/-- Claim C6: derived mode computes gross, taxable (with the discount capped
at gross), tax and total step by step, each rounded at currency scale
before the next step, with a zero rounding adjustment; and the spec's
example `unitPrice=1000, quantity=2, taxRate=18` yields 2000 / 2000 / 360 /
2360 with adjustment 0. -/
theorem claim6_derived_mode_formulas :
    (∀ input : LineItemInput,
        (calculateLineItem input).calculated.grossAmount =
          roundForCurrency
            ((validateLineItemInput input).unitPrice
              * ((validateLineItemInput input).quantity : ℚ))
            (validateLineItemInput input).currency ∧
        (calculateLineItem input).calculated.taxableAmount =
          roundForCurrency
            ((calculateLineItem input).calculated.grossAmount
              - min (validateLineItemInput input).discountAmount
                  (calculateLineItem input).calculated.grossAmount)
            (validateLineItemInput input).currency ∧
        (calculateLineItem input).calculated.taxAmount =
          roundForCurrency
            ((calculateLineItem input).calculated.taxableAmount
              * (validateLineItemInput input).taxRate / 100)
            (validateLineItemInput input).currency ∧
        (calculateLineItem input).calculated.total =
          roundForCurrency
            ((calculateLineItem input).calculated.taxableAmount
              + (calculateLineItem input).calculated.taxAmount)
            (validateLineItemInput input).currency ∧
        (calculateLineItem input).roundingAdjustment = 0) ∧
    ((calculateLineItem ⟨1000, 2, 0, 18, "INR"⟩).calculated =
        { grossAmount := 2000, taxableAmount := 2000, taxAmount := 360, total := 2360 } ∧
      (calculateLineItem ⟨1000, 2, 0, 18, "INR"⟩).roundingAdjustment = 0) := by
  constructor
  · intro input
    have hmin :
        (if (calculateLineItem input).calculated.grossAmount
            < (validateLineItemInput input).discountAmount then
          (calculateLineItem input).calculated.grossAmount
        else (validateLineItemInput input).discountAmount) =
        min (validateLineItemInput input).discountAmount
          (calculateLineItem input).calculated.grossAmount := by
      rcases lt_or_ge (calculateLineItem input).calculated.grossAmount
          (validateLineItemInput input).discountAmount with hlt | hge
      · rw [if_pos hlt, min_def, if_neg (not_le.mpr hlt)]
      · rw [if_neg (not_lt.mpr hge), min_def, if_pos hge]
    refine ⟨calculateLineItem_gross input, ?_, calculateLineItem_tax input,
      calculateLineItem_total input, rfl⟩
    rw [calculateLineItem_taxable input, hmin]
  · rw [lineItem_1000_eval]
    exact ⟨rfl, rfl⟩

/-- Counterexample to C7 as stated: for a tax amount below the currency's
minor unit (0.001 INR) both rounded halves collapse to zero, so
`cgst + sgst ≠ taxAmount`: the remainder is rounded too, not exact. -/
theorem claim7_gst_split_counterexample :
    (splitTaxCGSTSGST (1/1000) "INR").cgst + (splitTaxCGSTSGST (1/1000) "INR").sgst
      ≠ 1/1000 := by
  norm_num [splitTaxCGSTSGST, preciseDivide, roundForCurrency, round, preciseRound,
    rint, DEFAULT_ROUNDING_MODE, dpINR, Int.fract, -Int.self_sub_floor]

/-- Claim C7, amended: for every tax amount representable at the currency's
scale, CGST is the rounded half and CGST + SGST reproduces the tax amount
exactly. -/
theorem claim7_gst_split_amended (taxAmount : ℚ) (c : String)
    (h : atScale (getCurrencyDecimalPlaces c) taxAmount) :
    (splitTaxCGSTSGST taxAmount c).cgst + (splitTaxCGSTSGST taxAmount c).sgst
      = taxAmount ∧
    (splitTaxCGSTSGST taxAmount c).cgst = roundForCurrency (taxAmount / 2) c := by
  have hhalf : (preciseDivide taxAmount 2 20).getD 0 = taxAmount / 2 := by
    unfold preciseDivide
    rw [if_neg (by norm_num), Option.getD_some]
    exact preciseRound_eq_self _
      (atScale_mono
        (by have := getCurrencyDecimalPlaces_le_three c; omega)
        (atScale_half h))
  have hcgst : (splitTaxCGSTSGST taxAmount c).cgst = roundForCurrency (taxAmount / 2) c := by
    show roundForCurrency ((preciseDivide taxAmount 2 20).getD 0) c = _
    rw [hhalf]
  have hsgst : (splitTaxCGSTSGST taxAmount c).sgst
      = taxAmount - (splitTaxCGSTSGST taxAmount c).cgst := by
    show roundForCurrency (taxAmount - roundForCurrency ((preciseDivide taxAmount 2 20).getD 0) c) c = _
    exact roundForCurrency_eq_self (atScale_sub h (atScale_roundForCurrency _ _))
  exact ⟨by rw [hsgst]; ring, hcgst⟩

/-- Witness for amended C7 at the spec's odd tax amount 181 INR. -/
theorem claim7_gst_split_amended_witness :
    atScale (getCurrencyDecimalPlaces "INR") (181 : ℚ) ∧
    (splitTaxCGSTSGST 181 "INR").cgst + (splitTaxCGSTSGST 181 "INR").sgst = 181 :=
  have h : atScale (getCurrencyDecimalPlaces "INR") (181 : ℚ) := by
    norm_num [atScale, dpINR]
  ⟨h, (claim7_gst_split_amended 181 "INR" h).1⟩

/-- Counterexample to C8 as stated: `divideMoneyNumbers` does not surface
the division-by-zero error; it guards the zero divisor and returns the
value 0. -/
theorem claim8_division_by_zero_counterexample :
    divideMoneyNumbers 100 0 "INR" = 0 := by
  unfold divideMoneyNumbers
  rw [if_pos rfl]

/-- Claim C8, amended: `divideMoney` propagates the decimal engine's
DivisionByZero condition unchanged (no local recovery), while
`divideMoneyNumbers` recovers locally and returns 0 for a zero divisor. -/
theorem claim8_division_by_zero_amended :
    (∀ m : Money, divideMoney m 0 = none) ∧
    (∀ (a : ℚ) (c : String), divideMoneyNumbers a 0 c = 0) := by
  constructor
  · intro m
    unfold divideMoney preciseDivide
    rw [if_pos rfl]
    rfl
  · intro a c
    unfold divideMoneyNumbers
    rw [if_pos rfl]

/-- Counterexample to C9 as stated: for `quantity = 2^53` (greater than
`Number.MAX_SAFE_INTEGER`) the sanitized quantity is the safe-integer cap,
not `max(1, floor(input))`. -/
theorem claim9_validation_counterexample :
    (validateLineItemInput ⟨1, 9007199254740992, 0, 18, "INR"⟩).quantity
        = 9007199254740991 ∧
    (9007199254740991 : ℤ) ≠ max 1 ⌊(9007199254740992 : ℚ)⌋ := by
  constructor
  · show mathClamp ⌊(9007199254740992 : ℚ)⌋ 1 MAX_SAFE_INTEGER = 9007199254740991
    norm_num [mathClamp, MAX_SAFE_INTEGER, max_def, min_def]
  · norm_num [max_def]

/-- Claim C9, amended: sanitization never aborts; each offending field is
clamped (negative unit price and discount to 0, tax rate into [0,100],
quantity to `max(1, floor(input))` additionally capped at
`Number.MAX_SAFE_INTEGER`), each specific violation is recorded in the
errors list, `isValid` is false exactly when a violation occurred, and
`calculateLineItem` proceeds with the clamped values. -/
theorem claim9_validation_amended (input : LineItemInput) :
    (validateLineItemInput input).unitPrice = max 0 input.unitPrice ∧
    (validateLineItemInput input).quantity =
      min MAX_SAFE_INTEGER (max 1 ⌊input.quantity⌋) ∧
    (validateLineItemInput input).discountAmount = max 0 input.discountAmount ∧
    (validateLineItemInput input).taxRate = min 100 (max 0 input.taxRate) ∧
    ((validateLineItemInput input).isValid = true ↔
      (validateLineItemInput input).errors = []) ∧
    ((validateLineItemInput input).errors = [] ↔
      (0 ≤ input.unitPrice ∧ 1 ≤ input.quantity ∧ 0 ≤ input.discountAmount ∧
        0 ≤ input.taxRate ∧ input.taxRate ≤ 100)) ∧
    (ValidationError.unitPriceNegative ∈ (validateLineItemInput input).errors ↔
      input.unitPrice < 0) ∧
    (ValidationError.quantityTooSmall ∈ (validateLineItemInput input).errors ↔
      input.quantity < 1) ∧
    (ValidationError.discountNegative ∈ (validateLineItemInput input).errors ↔
      input.discountAmount < 0) ∧
    (ValidationError.taxRateNegative ∈ (validateLineItemInput input).errors ↔
      input.taxRate < 0) ∧
    (ValidationError.taxRateTooHigh ∈ (validateLineItemInput input).errors ↔
      100 < input.taxRate) ∧
    (calculateLineItem input).input.unitPrice = (validateLineItemInput input).unitPrice ∧
    (calculateLineItem input).input.quantity = (validateLineItemInput input).quantity ∧
    (calculateLineItem input).input.taxRate = (validateLineItemInput input).taxRate ∧
    (calculateLineItem input).currency = (validateLineItemInput input).currency := by
  have herr : (validateLineItemInput input).errors =
      (if input.unitPrice < 0 then [ValidationError.unitPriceNegative] else [])
        ++ (if input.quantity < 1 then [ValidationError.quantityTooSmall] else [])
        ++ (if input.discountAmount < 0 then [ValidationError.discountNegative] else [])
        ++ (if input.taxRate < 0 then [ValidationError.taxRateNegative] else [])
        ++ (if 100 < input.taxRate then [ValidationError.taxRateTooHigh] else []) := rfl
  have hsingle : ∀ (p : Prop) [Decidable p] (e : ValidationError),
      ((if p then [e] else []) = ([] : List ValidationError)) ↔ ¬ p := by
    intro p hp e
    split
    · simp [*]
    · simp [*]
  have hmem : ∀ (p : Prop) [Decidable p] (e x : ValidationError),
      (x ∈ (if p then [e] else [])) ↔ (p ∧ x = e) := by
    intro p hp e x
    split
    · simp [*]
    · simp [*]
  refine ⟨?_, rfl, ?_, rfl, ?_, ?_, ?_, ?_, ?_, ?_, ?_, rfl, rfl, rfl, rfl⟩
  · show (if input.unitPrice < 0 then 0 else input.unitPrice) = max 0 input.unitPrice
    rcases lt_or_ge input.unitPrice 0 with hlt | hge
    · rw [if_pos hlt, max_eq_left hlt.le]
    · rw [if_neg (not_lt.mpr hge), max_eq_right hge]
  · show preciseClamp input.discountAmount 0 (max input.discountAmount 0)
        = max 0 input.discountAmount
    unfold preciseClamp
    rw [max_comm input.discountAmount 0, min_self]
  · show (validateLineItemInput input).errors.isEmpty = true ↔ _
    rw [List.isEmpty_iff]
  · rw [herr]
    simp only [List.append_eq_nil, hsingle]
    simp [not_lt, and_assoc]
  · rw [herr]
    simp [List.mem_append, hmem]
  · rw [herr]
    simp [List.mem_append, hmem]
  · rw [herr]
    simp [List.mem_append, hmem]
  · rw [herr]
    simp [List.mem_append, hmem]
  · rw [herr]
    simp [List.mem_append, hmem]

/-- Claim C10: with `decimalPlaces = 0` (zero-decimal currencies) and a
nonzero residual, `distributeRoundingAdjustment` reaches the negative-length
digit repetition and throws; no defined result is returned. -/
theorem claim10_distribute_scale_zero (values : List ℚ) (targetTotal : ℚ)
    (hne : values ≠ [])
    (hdiff : targetTotal ≠ (values.map fun v => round v 0 DEFAULT_ROUNDING_MODE).sum) :
    distributeRoundingAdjustment values targetTotal 0 = none := by
  unfold distributeRoundingAdjustment
  rw [if_neg hne]
  dsimp only
  rw [if_neg (fun hcon => hdiff (by linarith))]
  rfl

/-- Witness for C10: a half rounds to zero at scale 0, so the residual is
nonzero and the call has no defined result. -/
theorem claim10_distribute_scale_zero_witness :
    ([(1 : ℚ)/2] : List ℚ) ≠ [] ∧
    (1 : ℚ) ≠ ([(1 : ℚ)/2].map fun v => round v 0 DEFAULT_ROUNDING_MODE).sum ∧
    distributeRoundingAdjustment [(1 : ℚ)/2] 1 0 = none := by
  have h2 : (1 : ℚ) ≠ ([(1 : ℚ)/2].map fun v => round v 0 DEFAULT_ROUNDING_MODE).sum := by
    norm_num [round, preciseRound, rint, DEFAULT_ROUNDING_MODE, Int.fract,
      -Int.self_sub_floor]
  exact ⟨by simp, h2, claim10_distribute_scale_zero _ _ (by simp) h2⟩

end MoneyUtils
